import Mathlib

/-!
Verification development for the G5U screenplay/Playwright wrapper.

The development shallowly embeds, in Lean:
- the Selector Resolution Engine (the recursive selector-spec walk),
- the state-checking methods of the BrowseTheWeb ability,
- the Element question dispatch,
- the local/session storage helpers,
and proves the stated properties about them.
-/

set_option autoImplicit false

/-! ## Basic string utilities -/

/-- Whether the list of characters starts with the given other list. -/
def listStartsWith : List Char → List Char → Bool
  | _, [] => true
  | [], _ :: _ => false
  | h :: hs, n :: ns => h == n && listStartsWith hs ns

/-- Whether the second list occurs as a contiguous run inside the first. -/
def listHasInfix : List Char → List Char → Bool
  | [], needle => needle.isEmpty
  | h :: t, needle => listStartsWith (h :: t) needle || listHasInfix t needle

/-- Case-sensitive substring containment on strings. -/
def textContains (text sub : String) : Bool :=
  listHasInfix text.toList sub.toList

/-! ## Data model of the Selector Resolution Engine

Modelled from the spec: the engine itself lives in the repository file
src/web/utils (imported by BrowseTheWeb as recursiveLocatorLookup), which is
not among the available sources; only its callers are. The definitions below
follow the spec (sections 3, 4.1, 4.2, 6, 7) word by word. -/

/-- A DOM node, identified abstractly. -/
abbrev Node := Nat

/-- A scope: the candidate set of nodes a query is evaluated against. -/
abbrev Scope := List Node

/-- Modelled from the spec: modifier keys, from the hover option set. -/
inductive Modifier where
  | alt
  | control
  | meta
  | shift
deriving DecidableEq

/-- Modelled from the spec: the enumerated UI condition a resolved Handle
may be waited on to satisfy (section 3, StateKind). -/
inductive StateKind where
  | attached
  | visible
  | hidden
  | enabled
  | disabled
  | editable
  | notEditable
  | hasText
  | hasValue
deriving DecidableEq

/-- Modelled from the spec: a text filter is a plain string (case-sensitive
substring semantics) or a regex-like pattern (pattern semantics), per
Scenario D of section 8. A pattern is kept abstract as its matching
predicate. -/
inductive TextFilter where
  | substr (s : String)
  | pattern (accepts : String → Bool)

/-- Whether a text filter accepts the given normalized rendered text. -/
def TextFilter.holds : TextFilter → String → Bool
  | .substr s, text => textContains text s
  | .pattern m, text => m text

/-- Modelled from the spec: SelectorSpec, polymorphic over two variants
(section 3): a Literal opaque query string, or a Chain carrying a base
query, optional text filter, optional nested sub-spec, and optional
required state/timeout/modifiers. -/
inductive SelectorSpec where
  | literal (query : String)
  | chain (base : String) (hasText : Option TextFilter)
      (subSelector : Option SelectorSpec) (state : Option StateKind)
      (timeout : Option Nat) (modifiers : Option (List Modifier))

/-- Modelled from the spec: the ScopeProvider interface (section 6): a
queryable handle to a subtree offering a query operation and the
normalized rendered text of a node. -/
structure ScopeProvider where
  query : Scope → String → List Node
  textOf : Node → String

/-- Modelled from the spec: per-call resolution options
(hasText / state / timeout / modifiers), section 6. -/
structure ResolveOptions where
  hasText : Option TextFilter := none
  state : Option StateKind := none
  timeout : Option Nat := none
  modifiers : Option (List Modifier) := none

/-- Modelled from the spec: a Handle is an ephemeral lazily-queried
reference bound to the scope selected by the previous chain link, the
final query and the optional text filter, together with the merged
state/timeout/modifiers (section 3). -/
structure Handle where
  scope : Scope
  finalQuery : String
  textFilter : Option TextFilter
  state : Option StateKind
  timeout : Option Nat
  modifiers : Option (List Modifier)

/-- One narrowing step: query the scope with the base string, then, when a
text filter is present, restrict to the candidates whose normalized
rendered text the filter accepts. -/
def narrow (P : ScopeProvider) (scope : Scope) (base : String)
    (f : Option TextFilter) : Scope :=
  match f with
  | none => P.query scope base
  | some tf => (P.query scope base).filter (fun n => tf.holds (P.textOf n))

/-- The effective scope of a Handle: the candidate set it materializes when
actually queried. -/
def Handle.effectiveScope (P : ScopeProvider) (h : Handle) : Scope :=
  narrow P h.scope h.finalQuery h.textFilter

/-- Merge of one optional field: the inner value when set, otherwise the
outer one (inner specs take precedence, spec section 4.2). -/
def mergeField {α : Type} (inner outer : Option α) : Option α :=
  match inner with
  | some v => some v
  | none => outer

/-- Modelled from the spec: the options pushed down to a subSelector: the
current level's state/timeout/modifiers merged over the inherited ones,
inner taking precedence; no text filter is inherited. -/
def pushDown (st : Option StateKind) (tmo : Option Nat)
    (mods : Option (List Modifier)) (opts : ResolveOptions) : ResolveOptions :=
  { hasText := none
    state := mergeField st opts.state
    timeout := mergeField tmo opts.timeout
    modifiers := mergeField mods opts.modifiers }

/-- Modelled from the spec: the Resolution Engine (section 4.2),
implemented in the repository as recursiveLocatorLookup in src/web/utils
(not among the available sources). A Literal query yields a Handle bound
to the scope, the query and the options. A Chain first resolves
(base, hasText) against the scope exactly as in the Literal case; when a
subSelector is present, it recurses with the narrowed candidate set as the
new scope, merging state/timeout/modifiers down (inner precedence), and
returns the deepest Handle produced. -/
def resolve : ScopeProvider → Scope → SelectorSpec → ResolveOptions → Handle
  | _, scope, .literal q, opts =>
      { scope := scope, finalQuery := q, textFilter := opts.hasText,
        state := opts.state, timeout := opts.timeout,
        modifiers := opts.modifiers }
  | _, scope, .chain base f none st tmo mods, opts =>
      { scope := scope, finalQuery := base, textFilter := f,
        state := mergeField st opts.state,
        timeout := mergeField tmo opts.timeout,
        modifiers := mergeField mods opts.modifiers }
  | P, scope, .chain base f (some sub) st tmo mods, opts =>
      resolve P (narrow P scope base f) sub (pushDown st tmo mods opts)

/-- The per-level (base, text-filter) pairs of a spec, outermost first; a
Literal level carries the filter inherited from the call options. -/
def specLevels : SelectorSpec → Option TextFilter →
    List (String × Option TextFilter)
  | .literal q, inherited => [(q, inherited)]
  | .chain base f none _ _ _, _ => [(base, f)]
  | .chain base f (some sub) _ _ _, _ => (base, f) :: specLevels sub none

/-- Iterated narrowing: apply the per-level narrowing steps one after the
other, starting from the root scope. -/
def iterNarrow (P : ScopeProvider) (scope : Scope)
    (levels : List (String × Option TextFilter)) : Scope :=
  levels.foldl (fun sc lv => narrow P sc lv.1 lv.2) scope

/-- The depth of a spec: its number of chain levels. -/
def SelectorSpec.depth : SelectorSpec → Nat
  | .literal _ => 1
  | .chain _ _ none _ _ _ => 1
  | .chain _ _ (some sub) _ _ _ => 1 + sub.depth

/-- The chain of optional state fields of a spec, outermost first. -/
def stateChain : SelectorSpec → List (Option StateKind)
  | .literal _ => []
  | .chain _ _ none st _ _ => [st]
  | .chain _ _ (some sub) st _ _ => st :: stateChain sub

/-- The chain of optional timeout fields of a spec, outermost first. -/
def timeoutChain : SelectorSpec → List (Option Nat)
  | .literal _ => []
  | .chain _ _ none _ tmo _ => [tmo]
  | .chain _ _ (some sub) _ tmo _ => tmo :: timeoutChain sub

/-- The chain of optional modifier fields of a spec, outermost first. -/
def modifierChain : SelectorSpec → List (Option (List Modifier))
  | .literal _ => []
  | .chain _ _ none _ _ m => [m]
  | .chain _ _ (some sub) _ _ m => m :: modifierChain sub

/-- The first set value among a list of optional values. -/
def firstSome {α : Type} : List (Option α) → Option α
  | [] => none
  | none :: rest => firstSome rest
  | some v :: _ => some v

/-- Modelled from the spec: the error taxonomy of section 7. -/
inductive EngineError where
  | invalidSpec
  | resolutionError
  | lookupTimeout (elapsed : Nat) (limit : Nat)
deriving DecidableEq

/-- Modelled from the spec: a spec is well formed when every base (and a
literal query) is a usable, here nonempty, query string, and any present
subSelector is itself well formed (section 4.2, Errors). -/
def wellFormedSpec : SelectorSpec → Bool
  | .literal q => q != ""
  | .chain base _ none _ _ _ => base != ""
  | .chain base _ (some sub) _ _ _ => base != "" && wellFormedSpec sub

/-- Modelled from the spec: the engine entry point fails with InvalidSpec
synchronously on malformed input and otherwise resolves structurally,
without existence checking (sections 4.2 and 6). -/
def resolveChecked (P : ScopeProvider) (scope : Scope) (spec : SelectorSpec)
    (opts : ResolveOptions) : Except EngineError Handle :=
  if wellFormedSpec spec then .ok (resolve P scope spec opts)
  else .error .invalidSpec

/-- Modelled from the spec: querying a Handle materializes its candidates;
a zero-match condition surfaces here, as a query-time ResolutionError,
and otherwise the underlying engine's first match is used (sections 4.2,
7 and 9). -/
def queryHandle (P : ScopeProvider) (h : Handle) : Except EngineError Node :=
  match h.effectiveScope P with
  | [] => .error .resolutionError
  | n :: _ => .ok n

/-! ## BrowseTheWeb ability: state-checking methods

Embedded from src/web/abilities/BrowseTheWeb.ts. Each check method first
performs a recursiveLocatorLookup with the caller's options (the required
state overridden) and then applies a Playwright expectation to the locator
returned, finally resolving to true. The lookup and the expectation are
modelled as calls into an abstract page model. -/

/-- A selector string (opaque to the engine, passed through verbatim). -/
abbrev Selector := String

/-- Advanced selector lookup options, as consumed by
recursiveLocatorLookup: optional text filter, optional nested sub-spec,
optional timeout and optional required state. -/
structure SelectorOptions where
  hasText : Option TextFilter := none
  subSelector : Option SelectorSpec := none
  timeout : Option Nat := none
  state : Option StateKind := none

/-- The option record the source builds by spreading the possibly-absent
caller options and overriding the required state. -/
def optWithState (options : Option SelectorOptions) (s : StateKind) :
    SelectorOptions :=
  let o := options.getD {}
  { o with state := some s }

/-- The timeout the source passes to each expectation: the caller's
timeout when options are present, absent otherwise. -/
def optTimeout (options : Option SelectorOptions) : Option Nat :=
  options.bind fun o => o.timeout

/-- The arguments of one recursiveLocatorLookup call. -/
structure LookupArgs where
  selector : Selector
  options : SelectorOptions

/-- A string or a regular expression, the latter kept opaque through its
source text. -/
inductive StrOrRegex where
  | str (s : String)
  | regex (source : String)
deriving DecidableEq

/-- A text payload: a single string-or-regex, or an ordered sequence of
them (the array case of the source). -/
inductive TextPayload where
  | single (v : StrOrRegex)
  | many (vs : List StrOrRegex)
deriving DecidableEq

/-- The Playwright expectation a check method applies to the locator it
looked up, with the timeout each call passes. -/
inductive CheckAssertion where
  | toBeVisible (timeout : Option Nat)
  | toBeHidden (timeout : Option Nat)
  | toBeEnabled (timeout : Option Nat)
  | toBeDisabled (timeout : Option Nat)
  | toBeEditable (timeout : Option Nat)
  | notToBeEditable (timeout : Option Nat)
  | toHaveText (expected : TextPayload) (timeout : Option Nat)
  | notToHaveText (expected : TextPayload) (timeout : Option Nat)
  | toHaveValue (expected : StrOrRegex) (timeout : Option Nat)
  | notToHaveValue (expected : StrOrRegex) (timeout : Option Nat)

/-- One check method invocation: the lookup it performs first and the
expectation it then applies to the locator returned. -/
structure CheckCall where
  lookupArgs : LookupArgs
  assertion : CheckAssertion

/-- The two modes of checkVisibilityState. -/
inductive VisMode where
  | visible
  | hidden
deriving DecidableEq

/-- The two modes of checkEnabledState. -/
inductive EnabledMode where
  | enabled
  | disabled
deriving DecidableEq

/-- The two modes of checkEditableState. -/
inductive EditableMode where
  | editable
  | notEditable
deriving DecidableEq

/-- The two modes of checkSelectorText and checkSelectorValue. -/
inductive HasMode where
  | has
  | hasNot
deriving DecidableEq

/-- BrowseTheWeb.checkVisibilityState: look the selector up with the
required state visible (resp. hidden) and expect toBeVisible
(resp. toBeHidden) with the caller's timeout. -/
def checkVisibilityState (selector : Selector) (mode : VisMode)
    (options : Option SelectorOptions) : CheckCall :=
  match mode with
  | .visible =>
      { lookupArgs := { selector := selector,
                        options := optWithState options .visible },
        assertion := .toBeVisible (optTimeout options) }
  | .hidden =>
      { lookupArgs := { selector := selector,
                        options := optWithState options .hidden },
        assertion := .toBeHidden (optTimeout options) }

/-- BrowseTheWeb.checkEnabledState: look the selector up with the required
state visible in both modes and expect toBeEnabled (resp. toBeDisabled). -/
def checkEnabledState (selector : Selector) (mode : EnabledMode)
    (options : Option SelectorOptions) : CheckCall :=
  match mode with
  | .enabled =>
      { lookupArgs := { selector := selector,
                        options := optWithState options .visible },
        assertion := .toBeEnabled (optTimeout options) }
  | .disabled =>
      { lookupArgs := { selector := selector,
                        options := optWithState options .visible },
        assertion := .toBeDisabled (optTimeout options) }

/-- BrowseTheWeb.checkEditableState: look the selector up with the
required state visible in both modes and expect toBeEditable
(resp. not.toBeEditable). -/
def checkEditableState (selector : Selector) (mode : EditableMode)
    (options : Option SelectorOptions) : CheckCall :=
  match mode with
  | .editable =>
      { lookupArgs := { selector := selector,
                        options := optWithState options .visible },
        assertion := .toBeEditable (optTimeout options) }
  | .notEditable =>
      { lookupArgs := { selector := selector,
                        options := optWithState options .visible },
        assertion := .notToBeEditable (optTimeout options) }

/-- BrowseTheWeb.checkSelectorText: look the selector up with the required
state visible and expect toHaveText (resp. not.toHaveText). -/
def checkSelectorText (selector : Selector) (text : TextPayload)
    (mode : HasMode) (options : Option SelectorOptions) : CheckCall :=
  match mode with
  | .has =>
      { lookupArgs := { selector := selector,
                        options := optWithState options .visible },
        assertion := .toHaveText text (optTimeout options) }
  | .hasNot =>
      { lookupArgs := { selector := selector,
                        options := optWithState options .visible },
        assertion := .notToHaveText text (optTimeout options) }

/-- BrowseTheWeb.checkSelectorValue: look the selector up with the
required state visible and expect toHaveValue (resp. not.toHaveValue). -/
def checkSelectorValue (selector : Selector) (value : StrOrRegex)
    (mode : HasMode) (options : Option SelectorOptions) : CheckCall :=
  match mode with
  | .has =>
      { lookupArgs := { selector := selector,
                        options := optWithState options .visible },
        assertion := .toHaveValue value (optTimeout options) }
  | .hasNot =>
      { lookupArgs := { selector := selector,
                        options := optWithState options .visible },
        assertion := .notToHaveValue value (optTimeout options) }

/-- An opaque Playwright locator. -/
abbrev Locator := Nat

/-- The abstract page a check call runs against: the lookup may return a
locator or fail, the expectation may pass or fail, and every failure is a
bounded-wait timeout carrying the elapsed time and the limit. -/
structure PageModel where
  lookup : LookupArgs → Except EngineError Locator
  assert : Locator → CheckAssertion → Except EngineError Unit
  lookupTimeoutOnly : ∀ args e, lookup args = .error e →
    ∃ el lim, e = .lookupTimeout el lim
  assertTimeoutOnly : ∀ loc a e, assert loc a = .error e →
    ∃ el lim, e = .lookupTimeout el lim

/-- Run one check call: perform the lookup, apply the expectation to the
locator returned, and resolve to true; any failure propagates. -/
def runCheck (pm : PageModel) (c : CheckCall) : Except EngineError Bool :=
  match pm.lookup c.lookupArgs with
  | .error e => .error e
  | .ok loc =>
      match pm.assert loc c.assertion with
      | .error e => .error e
      | .ok _ => .ok true

/-- An observable step of a check call. -/
inductive CheckEvent where
  | lookupEv (args : LookupArgs)
  | assertEv (a : CheckAssertion)

/-- The steps a check call performs, in order: the lookup always comes
first, and the expectation is applied only once the lookup succeeded. -/
def checkTrace (pm : PageModel) (c : CheckCall) : List CheckEvent :=
  match pm.lookup c.lookupArgs with
  | .error _ => [.lookupEv c.lookupArgs]
  | .ok _ => [.lookupEv c.lookupArgs, .assertEv c.assertion]

/-- The contract of a state-checking operation: it never resolves to
false; when the predicate holds before the timeout it resolves to true;
a lookup or expectation failure is surfaced unchanged; every outcome is
true or a timeout error carrying elapsed time and limit; and the trace is
one lookup optionally followed by one expectation, with no retry. -/
def checkContract (pm : PageModel) (c : CheckCall) : Prop :=
  runCheck pm c ≠ Except.ok false ∧
  (∀ loc, pm.lookup c.lookupArgs = .ok loc →
    pm.assert loc c.assertion = .ok () → runCheck pm c = .ok true) ∧
  (∀ e, pm.lookup c.lookupArgs = .error e → runCheck pm c = .error e) ∧
  (∀ loc e, pm.lookup c.lookupArgs = .ok loc →
    pm.assert loc c.assertion = .error e → runCheck pm c = .error e) ∧
  (runCheck pm c = .ok true ∨
    ∃ el lim, runCheck pm c = .error (.lookupTimeout el lim)) ∧
  (checkTrace pm c = [.lookupEv c.lookupArgs] ∨
    checkTrace pm c = [.lookupEv c.lookupArgs, .assertEv c.assertion])

/-! ## Element question

Embedded from src/web/questions/Element.ts. The question carries a check
mode fixed at construction, a mode string (initially "visible"), a
selector, a payload and optional options; answeredBy dispatches on the
mode string to one of the five BrowseTheWeb check methods. The mode field
is modelled as the string the source stores, so the final unknown-mode
branch is present in the model exactly as in the source. -/

/-- The two check modes an Element is constructed with. -/
inductive CheckMode where
  | toBe
  | notToBe
deriving DecidableEq

/-- The visibility mode answeredBy picks from the check mode. -/
def CheckMode.visMode : CheckMode → VisMode
  | .toBe => .visible
  | .notToBe => .hidden

/-- The enabled mode answeredBy picks from the check mode. -/
def CheckMode.enMode : CheckMode → EnabledMode
  | .toBe => .enabled
  | .notToBe => .disabled

/-- The editable mode answeredBy picks from the check mode. -/
def CheckMode.edMode : CheckMode → EditableMode
  | .toBe => .editable
  | .notToBe => .notEditable

/-- The has mode answeredBy picks from the check mode. -/
def CheckMode.hasMode : CheckMode → HasMode
  | .toBe => .has
  | .notToBe => .hasNot

/-- The Element question state: check mode, mode string, selector, payload
and options, with the source's field initializers. -/
structure Element where
  checkMode : CheckMode
  mode : String
  selector : Selector
  payload : TextPayload
  options : Option SelectorOptions

/-- The Element constructor: only the check mode is chosen; the other
fields start at their initializers. -/
def Element.make (checkMode : CheckMode) : Element :=
  { checkMode := checkMode, mode := "visible", selector := "",
    payload := .single (.str ""), options := none }

/-- The factory getter Element.toBe. -/
def Element.toBe : Element := Element.make CheckMode.toBe

/-- The factory getter Element.notToBe. -/
def Element.notToBe : Element := Element.make CheckMode.notToBe

/-- The factory getter Element.toHave, constructed with check mode toBe. -/
def Element.toHave : Element := Element.make CheckMode.toBe

/-- The factory getter Element.notToHave, constructed with check mode
notToBe. -/
def Element.notToHave : Element := Element.make CheckMode.notToBe

/-- The mode operator Element.visible. -/
def Element.visible (e : Element) (selector : Selector)
    (options : Option SelectorOptions) : Element :=
  { e with mode := "visible", selector := selector, options := options }

/-- The mode operator Element.enabled. -/
def Element.enabled (e : Element) (selector : Selector)
    (options : Option SelectorOptions) : Element :=
  { e with mode := "enabled", selector := selector, options := options }

/-- The mode operator Element.text: also stores the payload, which may be
a single value or an ordered sequence. -/
def Element.text (e : Element) (selector : Selector) (text : TextPayload)
    (options : Option SelectorOptions) : Element :=
  { e with
      mode := "text", selector := selector, payload := text,
      options := options }

/-- The mode operator Element.value: stores a single string-or-regex
payload (its parameter type admits no array). -/
def Element.value (e : Element) (selector : Selector) (value : StrOrRegex)
    (options : Option SelectorOptions) : Element :=
  { e with
      mode := "value", selector := selector,
      payload := .single value, options := options }

/-- The mode operator Element.editable. -/
def Element.editable (e : Element) (selector : Selector)
    (options : Option SelectorOptions) : Element :=
  { e with mode := "editable", selector := selector, options := options }

/-- The errors Element.answeredBy can throw: the incompatible-payload
error of the value branch and the final unknown-mode error. -/
inductive AnswerError where
  | incompatiblePayload
  | unknownMode
deriving DecidableEq

/-- The BrowseTheWeb check method an Element dispatches to, with its
arguments. -/
inductive AbilityCall where
  | visibilityState (selector : Selector) (mode : VisMode)
      (options : Option SelectorOptions)
  | enabledState (selector : Selector) (mode : EnabledMode)
      (options : Option SelectorOptions)
  | editableState (selector : Selector) (mode : EditableMode)
      (options : Option SelectorOptions)
  | selectorText (selector : Selector) (text : TextPayload) (mode : HasMode)
      (options : Option SelectorOptions)
  | selectorValue (selector : Selector) (value : StrOrRegex) (mode : HasMode)
      (options : Option SelectorOptions)

/-- The check call an ability dispatch performs, through the corresponding
BrowseTheWeb method. -/
def AbilityCall.toCheck : AbilityCall → CheckCall
  | .visibilityState sel m o => checkVisibilityState sel m o
  | .enabledState sel m o => checkEnabledState sel m o
  | .editableState sel m o => checkEditableState sel m o
  | .selectorText sel t m o => checkSelectorText sel t m o
  | .selectorValue sel v m o => checkSelectorValue sel v m o

/-- Element.answeredBy: dispatch on the mode string, in source order; in
the value branch an array payload throws the incompatible-payload error
before any ability call; an unrecognized mode falls through to the
unknown-mode error. -/
def Element.answeredBy (e : Element) : Except AnswerError AbilityCall :=
  if e.mode = "visible" then
    .ok (.visibilityState e.selector e.checkMode.visMode e.options)
  else if e.mode = "enabled" then
    .ok (.enabledState e.selector e.checkMode.enMode e.options)
  else if e.mode = "editable" then
    .ok (.editableState e.selector e.checkMode.edMode e.options)
  else if e.mode = "text" then
    .ok (.selectorText e.selector e.payload e.checkMode.hasMode e.options)
  else if e.mode = "value" then
    match e.payload with
    | .single v =>
        .ok (.selectorValue e.selector v e.checkMode.hasMode e.options)
    | .many _ => .error .incompatiblePayload
  else .error .unknownMode

/-- The four public factory getters. -/
inductive Factory where
  | toBe
  | notToBe
  | toHave
  | notToHave
deriving DecidableEq

/-- The Element a factory getter returns. -/
def factoryElement : Factory → Element
  | .toBe => Element.toBe
  | .notToBe => Element.notToBe
  | .toHave => Element.toHave
  | .notToHave => Element.notToHave

/-- One public mode-operator invocation with its arguments. -/
inductive ModeOp where
  | visible (selector : Selector) (options : Option SelectorOptions)
  | enabled (selector : Selector) (options : Option SelectorOptions)
  | text (selector : Selector) (text : TextPayload)
      (options : Option SelectorOptions)
  | value (selector : Selector) (value : StrOrRegex)
      (options : Option SelectorOptions)
  | editable (selector : Selector) (options : Option SelectorOptions)

/-- Apply one mode operator to an Element, as the source methods do. -/
def applyOp (e : Element) : ModeOp → Element
  | .visible sel o => e.visible sel o
  | .enabled sel o => e.enabled sel o
  | .text sel t o => e.text sel t o
  | .value sel v o => e.value sel v o
  | .editable sel o => e.editable sel o

/-- An Element built through the public interface: a factory getter
followed by any sequence of mode operators. -/
def buildElement (f : Factory) (ops : List ModeOp) : Element :=
  ops.foldl applyOp (factoryElement f)

/-- The states of the mode field reachable through the public interface:
one of the five handled strings, the value mode only together with a
single payload. -/
def modeKnown (e : Element) : Prop :=
  e.mode = "visible" ∨ e.mode = "enabled" ∨ e.mode = "editable" ∨
  e.mode = "text" ∨ (e.mode = "value" ∧ ∃ v, e.payload = .single v)

/-! ## Local and session storage helpers

Embedded from src/web/abilities/BrowseTheWeb.ts. The setter stores the
JSON serialization of the value under the key; the getter reads the key
and, when the raw item is truthy (present and nonempty), parses it back,
returning undefined otherwise. The browser storage is a key-to-string
map and the host JSON built-ins are an external collaborator, modelled by
a codec whose laws state what the built-ins guarantee for
JSON-serializable values. -/

/-- A web storage area: a key-to-raw-string map. -/
def Storage : Type := String → Option String

/-- Read a raw item, as storage.getItem. -/
def Storage.getItem (st : Storage) (k : String) : Option String := st k

/-- Write a raw item, as storage.setItem: later writes shadow earlier
ones, other keys are untouched. -/
def Storage.setItem (st : Storage) (k v : String) : Storage :=
  fun q => if q == k then some v else st q

/-- The empty storage area. -/
def Storage.emptyArea : Storage := fun _ => none

/-- The host JSON built-ins for a type of JSON-serializable values:
stringify and parse, with the two laws the helpers rely on: parsing a
serialized value gives it back, and a serialization is never the empty
string. -/
structure JsonCodec (J : Type) where
  stringify : J → String
  parse : String → Option J
  parse_stringify : ∀ v, parse (stringify v) = some v
  stringify_ne_empty : ∀ v, stringify v ≠ ""

/-- The error JSON.parse throws on malformed input. -/
inductive JsError where
  | syntaxError
deriving DecidableEq

/-- BrowseTheWeb.setLocalStorageItem: store the JSON serialization of the
value under the key. -/
def setLocalStorageItem {J : Type} (c : JsonCodec J) (st : Storage)
    (key : String) (value : J) : Storage :=
  st.setItem key (c.stringify value)

/-- BrowseTheWeb.getLocalStorageItem: read the raw item; when it is truthy
(present and nonempty) parse it back, otherwise resolve to undefined. -/
def getLocalStorageItem {J : Type} (c : JsonCodec J) (st : Storage)
    (key : String) : Except JsError (Option J) :=
  match st.getItem key with
  | some s =>
      if s == "" then .ok none
      else
        match c.parse s with
        | some v => .ok (some v)
        | none => .error .syntaxError
  | none => .ok none

/-- BrowseTheWeb.setSessionStorageItem: same algorithm as the local
variant, against the session storage area. -/
def setSessionStorageItem {J : Type} (c : JsonCodec J) (st : Storage)
    (key : String) (value : J) : Storage :=
  st.setItem key (c.stringify value)

/-- BrowseTheWeb.getSessionStorageItem: same algorithm as the local
variant, against the session storage area. -/
def getSessionStorageItem {J : Type} (c : JsonCodec J) (st : Storage)
    (key : String) : Except JsError (Option J) :=
  match st.getItem key with
  | some s =>
      if s == "" then .ok none
      else
        match c.parse s with
        | some v => .ok (some v)
        | none => .error .syntaxError
  | none => .ok none

/-- The serializer of the concrete codec instance below. -/
def unitStringify (_ : Unit) : String := "null"

/-- The parser of the concrete codec instance below. -/
def unitParse (s : String) : Option Unit :=
  if s == "null" then some () else none

/-- A concrete codec instance, for evaluating the helpers on a concrete
input. -/
def unitCodec : JsonCodec Unit where
  stringify := unitStringify
  parse := unitParse
  parse_stringify := fun _ => rfl
  stringify_ne_empty := fun v => by unfold unitStringify; decide

/-- A concrete scope provider on which every query is empty, for
evaluating resolution on a concrete input. -/
def emptyProvider : ScopeProvider where
  query := fun _ _ => []
  textOf := fun _ => ""

/-- A concrete page model on which every lookup and every expectation
succeeds, for evaluating check calls on a concrete input. -/
def okPage : PageModel where
  lookup := fun _ => .ok 0
  assert := fun _ _ => .ok ()
  lookupTimeoutOnly := fun _ e h => absurd h (by simp)
  assertTimeoutOnly := fun _ _ e h => absurd h (by simp)

/-! ## Properties of the Resolution Engine -/

/-- The first set value of a one-element list is that element. -/
theorem firstSome_singleton {α : Type} (o : Option α) :
    firstSome [o] = o := by
  cases o <;> rfl

/-- The first set value of an appended list is the first list's, when it
has one, and the second list's otherwise. -/
theorem firstSome_append {α : Type} (xs ys : List (Option α)) :
    firstSome (xs ++ ys) = mergeField (firstSome xs) (firstSome ys) := by
  induction xs with
  | nil => simp [firstSome, mergeField]
  | cons x rest ih => cases x <;> simp [firstSome, mergeField, ih]

/-- The effective scope of the Handle resolve returns is the iterated
per-level narrowing of the root scope. -/
theorem effScope_resolve_eq : ∀ (P : ScopeProvider) (scope : Scope)
    (spec : SelectorSpec) (opts : ResolveOptions),
    Handle.effectiveScope P (resolve P scope spec opts) =
      iterNarrow P scope (specLevels spec opts.hasText)
  | P, scope, .literal q, opts => by
      simp [resolve, Handle.effectiveScope, iterNarrow, specLevels]
  | P, scope, .chain base f none st tmo mods, opts => by
      simp [resolve, Handle.effectiveScope, iterNarrow, specLevels]
  | P, scope, .chain base f (some sub) st tmo mods, opts => by
      have ih := effScope_resolve_eq P (narrow P scope base f) sub
        (pushDown st tmo mods opts)
      simpa [resolve, specLevels, iterNarrow, pushDown] using ih

/-- A spec has as many levels as its depth. -/
theorem specLevels_length : ∀ (spec : SelectorSpec) (f : Option TextFilter),
    (specLevels spec f).length = spec.depth
  | .literal _, _ => by simp [specLevels, SelectorSpec.depth]
  | .chain _ _ none _ _ _, _ => by simp [specLevels, SelectorSpec.depth]
  | .chain _ _ (some sub) _ _ _, f => by
      have ih := specLevels_length sub none
      simp [specLevels, SelectorSpec.depth, ih]
      omega

/-- The state, timeout and modifier fields of the Handle resolve returns
are the innermost set values of the respective chains, falling back to the
call options. -/
theorem resolve_fields_eq : ∀ (P : ScopeProvider) (scope : Scope)
    (spec : SelectorSpec) (opts : ResolveOptions),
    (resolve P scope spec opts).state =
      firstSome ((stateChain spec).reverse ++ [opts.state]) ∧
    (resolve P scope spec opts).timeout =
      firstSome ((timeoutChain spec).reverse ++ [opts.timeout]) ∧
    (resolve P scope spec opts).modifiers =
      firstSome ((modifierChain spec).reverse ++ [opts.modifiers])
  | P, scope, .literal q, opts => by
      simp [resolve, stateChain, timeoutChain, modifierChain,
        firstSome_singleton]
  | P, scope, .chain base f none st tmo mods, opts => by
      refine ⟨?_, ?_, ?_⟩ <;>
        simp [resolve, stateChain, timeoutChain, modifierChain] <;>
        cases st <;> cases tmo <;> cases mods <;>
        simp [firstSome, firstSome_singleton, mergeField]
  | P, scope, .chain base f (some sub) st tmo mods, opts => by
      have ih := resolve_fields_eq P (narrow P scope base f) sub
        (pushDown st tmo mods opts)
      obtain ⟨ih1, ih2, ih3⟩ := ih
      refine ⟨?_, ?_, ?_⟩
      · rw [show resolve P scope (.chain base f (some sub) st tmo mods) opts
            = resolve P (narrow P scope base f) sub (pushDown st tmo mods opts)
            from rfl, ih1]
        simp [stateChain, pushDown, firstSome_append, firstSome_singleton]
        cases st <;> cases opts.state <;>
          simp [firstSome, mergeField, firstSome_singleton]
      · rw [show resolve P scope (.chain base f (some sub) st tmo mods) opts
            = resolve P (narrow P scope base f) sub (pushDown st tmo mods opts)
            from rfl, ih2]
        simp [timeoutChain, pushDown, firstSome_append, firstSome_singleton]
        cases tmo <;> cases opts.timeout <;>
          simp [firstSome, mergeField, firstSome_singleton]
      · rw [show resolve P scope (.chain base f (some sub) st tmo mods) opts
            = resolve P (narrow P scope base f) sub (pushDown st tmo mods opts)
            from rfl, ih3]
        simp [modifierChain, pushDown, firstSome_append, firstSome_singleton]
        cases mods <;> cases opts.modifiers <;>
          simp [firstSome, mergeField, firstSome_singleton]

/-- C1: resolving a chain of depth N yields the Handle whose effective
scope is the per-level (base, hasText) narrowing applied iteratively N
times from the root scope: each level narrows the current scope, a
present subSelector is resolved with the narrowed set as the new scope,
and the deepest Handle is returned. -/
theorem chain_resolution_iterates_narrowing (P : ScopeProvider)
    (scope : Scope) (spec : SelectorSpec) (opts : ResolveOptions) :
    Handle.effectiveScope P (resolve P scope spec opts) =
      iterNarrow P scope (specLevels spec opts.hasText) ∧
    (specLevels spec opts.hasText).length = spec.depth ∧
    (∀ (base : String) (f : Option TextFilter) (sub : SelectorSpec)
       (st : Option StateKind) (tmo : Option Nat)
       (mods : Option (List Modifier)),
       resolve P scope (.chain base f (some sub) st tmo mods) opts =
         resolve P (narrow P scope base f) sub (pushDown st tmo mods opts)) :=
  ⟨effScope_resolve_eq P scope spec opts,
   specLevels_length spec opts.hasText,
   fun _ _ _ _ _ _ => rfl⟩

/-- C2: a hasText filter is selective and applied at its own level before
any subSelector descent: the narrowed scope is exactly the text-matching
subset of the base query's candidates, its size is bounded by the
candidate count, and a chain level with a subSelector descends into the
filtered set. -/
theorem hasText_narrows_to_matching_subset (P : ScopeProvider)
    (scope : Scope) (base : String) (tf : TextFilter) :
    (∀ n : Node, n ∈ narrow P scope base (some tf) ↔
       n ∈ P.query scope base ∧ tf.holds (P.textOf n) = true) ∧
    narrow P scope base (some tf) =
      (P.query scope base).filter (fun n => tf.holds (P.textOf n)) ∧
    (narrow P scope base (some tf)).length ≤ (P.query scope base).length ∧
    (∀ (sub : SelectorSpec) (st : Option StateKind) (tmo : Option Nat)
       (mods : Option (List Modifier)) (opts : ResolveOptions),
       resolve P scope (.chain base (some tf) (some sub) st tmo mods) opts =
         resolve P (narrow P scope base (some tf)) sub
           (pushDown st tmo mods opts)) := by
  refine ⟨?_, rfl, ?_, fun _ _ _ _ _ => rfl⟩
  · intro n
    simp [narrow, List.mem_filter]
  · simp only [narrow]
    exact List.length_filter_le _ _

/-- C3: state, timeout and modifiers are merged from outer chain levels
down to the innermost unresolved level, inner values taking precedence:
each field of the returned Handle is the innermost set value of its
chain, falling back to the call options, and in particular on a two-level
chain with both levels set the inner level's values win while an
unset inner level inherits the outer ones. -/
theorem resolve_merges_options_inner_precedence (P : ScopeProvider)
    (scope : Scope) (spec : SelectorSpec) (opts : ResolveOptions) :
    ((resolve P scope spec opts).state =
      firstSome ((stateChain spec).reverse ++ [opts.state]) ∧
     (resolve P scope spec opts).timeout =
      firstSome ((timeoutChain spec).reverse ++ [opts.timeout]) ∧
     (resolve P scope spec opts).modifiers =
      firstSome ((modifierChain spec).reverse ++ [opts.modifiers])) ∧
    (∀ (b1 b2 : String) (f1 f2 : Option TextFilter)
       (stO stI : StateKind) (tmoO tmoI : Nat) (mO mI : List Modifier),
       (resolve P scope
          (.chain b1 f1
            (some (.chain b2 f2 none (some stI) (some tmoI) (some mI)))
            (some stO) (some tmoO) (some mO)) opts).state = some stI ∧
       (resolve P scope
          (.chain b1 f1
            (some (.chain b2 f2 none (some stI) (some tmoI) (some mI)))
            (some stO) (some tmoO) (some mO)) opts).timeout = some tmoI ∧
       (resolve P scope
          (.chain b1 f1
            (some (.chain b2 f2 none (some stI) (some tmoI) (some mI)))
            (some stO) (some tmoO) (some mO)) opts).modifiers = some mI) ∧
    (∀ (b1 b2 : String) (f1 f2 : Option TextFilter)
       (stO : StateKind) (tmoO : Nat) (mO : List Modifier),
       (resolve P scope
          (.chain b1 f1 (some (.chain b2 f2 none none none none))
            (some stO) (some tmoO) (some mO)) opts).state = some stO ∧
       (resolve P scope
          (.chain b1 f1 (some (.chain b2 f2 none none none none))
            (some stO) (some tmoO) (some mO)) opts).timeout = some tmoO ∧
       (resolve P scope
          (.chain b1 f1 (some (.chain b2 f2 none none none none))
            (some stO) (some tmoO) (some mO)) opts).modifiers = some mO) := by
  refine ⟨resolve_fields_eq P scope spec opts, ?_, ?_⟩
  · intro b1 b2 f1 f2 stO stI tmoO tmoI mO mI
    exact ⟨rfl, rfl, rfl⟩
  · intro b1 b2 f1 f2 stO tmoO mO
    exact ⟨rfl, rfl, rfl⟩

/-- C7: resolution is structural, not existence-checking: a well-formed
spec resolves to a Handle with no error even when its queries match zero
nodes, and the zero-match condition surfaces only when the Handle is
actually queried, as a query-time ResolutionError. -/
theorem resolve_zero_match_no_error (P : ScopeProvider) (scope : Scope)
    (spec : SelectorSpec) (opts : ResolveOptions)
    (h : wellFormedSpec spec = true) :
    resolveChecked P scope spec opts = .ok (resolve P scope spec opts) ∧
    (Handle.effectiveScope P (resolve P scope spec opts) = [] →
      queryHandle P (resolve P scope spec opts) =
        .error EngineError.resolutionError) := by
  constructor
  · simp [resolveChecked, h]
  · intro hz
    simp [queryHandle, hz]

/-- C7, witness: the literal spec of Scenario B resolved against a
provider on which every query is empty: resolution succeeds, the
effective scope is empty, and querying the Handle is the step that
fails with ResolutionError. -/
theorem resolve_zero_match_no_error_witness :
    (resolveChecked emptyProvider [0] (.literal "#missing") {} =
      .ok (resolve emptyProvider [0] (.literal "#missing") {}) ∧
     (Handle.effectiveScope emptyProvider
        (resolve emptyProvider [0] (.literal "#missing") {}) = [] →
       queryHandle emptyProvider
         (resolve emptyProvider [0] (.literal "#missing") {}) =
           .error EngineError.resolutionError)) ∧
    Handle.effectiveScope emptyProvider
      (resolve emptyProvider [0] (.literal "#missing") {}) = [] :=
  ⟨resolve_zero_match_no_error emptyProvider [0] (.literal "#missing") {}
     (by rfl), rfl⟩

/-! ## Properties of the BrowseTheWeb state checks -/

/-- Every check call satisfies the state-check contract: it never
resolves to false, resolves to true exactly when lookup and expectation
succeed, surfaces failures unchanged as timeout errors, and performs a
single lookup followed by at most one expectation. -/
theorem checkContract_holds (pm : PageModel) (c : CheckCall) :
    checkContract pm c := by
  unfold checkContract
  rcases hl : pm.lookup c.lookupArgs with e | loc
  · obtain ⟨el, lim, he⟩ := pm.lookupTimeoutOnly c.lookupArgs e hl
    subst he
    refine ⟨by simp [runCheck, hl], ?_, ?_, ?_, ?_, ?_⟩
    · intro loc hlo
      exact absurd hlo (by simp)
    · intro e' he'
      simp at he'
      simp [runCheck, hl, he']
    · intro loc e' hlo
      exact absurd hlo (by simp)
    · right
      exact ⟨el, lim, by simp [runCheck, hl]⟩
    · left
      simp [checkTrace, hl]
  · rcases ha : pm.assert loc c.assertion with e | u
    · obtain ⟨el, lim, he⟩ := pm.assertTimeoutOnly loc c.assertion e ha
      subst he
      refine ⟨by simp [runCheck, hl, ha], ?_, ?_, ?_, ?_, ?_⟩
      · intro loc' hlo hao
        simp at hlo
        subst hlo
        rw [ha] at hao
        exact absurd hao (by simp)
      · intro e' he'
        exact absurd he' (by simp)
      · intro loc' e' hlo hao
        simp at hlo
        subst hlo
        rw [ha] at hao
        simp at hao
        simp [runCheck, hl, ha, hao]
      · right
        exact ⟨el, lim, by simp [runCheck, hl, ha]⟩
      · right
        simp [checkTrace, hl]
    · refine ⟨by simp [runCheck, hl, ha], ?_, ?_, ?_, ?_, ?_⟩
      · intro loc' hlo hao
        simp [runCheck, hl, ha]
      · intro e' he'
        exact absurd he' (by simp)
      · intro loc' e' hlo hao
        simp at hlo
        subst hlo
        rw [ha] at hao
        exact absurd hao (by simp)
      · left
        simp [runCheck, hl, ha]
      · right
        simp [checkTrace, hl]

/-- C4: the enabled/disabled and editable/not-editable checks imply the
node is first visible: in both the positive and the negative mode the
locator lookup carries the required state visible, the interactivity
expectation is applied to the locator the lookup returned, and in every
trace the lookup comes first, the expectation only after it succeeded. -/
theorem interactivity_checks_lookup_visible_first (pm : PageModel)
    (sel : Selector) (opts : Option SelectorOptions) :
    (checkEnabledState sel .enabled opts).lookupArgs.options.state =
      some StateKind.visible ∧
    (checkEnabledState sel .disabled opts).lookupArgs.options.state =
      some StateKind.visible ∧
    (checkEditableState sel .editable opts).lookupArgs.options.state =
      some StateKind.visible ∧
    (checkEditableState sel .notEditable opts).lookupArgs.options.state =
      some StateKind.visible ∧
    (checkEnabledState sel .enabled opts).assertion =
      .toBeEnabled (optTimeout opts) ∧
    (checkEnabledState sel .disabled opts).assertion =
      .toBeDisabled (optTimeout opts) ∧
    (checkEditableState sel .editable opts).assertion =
      .toBeEditable (optTimeout opts) ∧
    (checkEditableState sel .notEditable opts).assertion =
      .notToBeEditable (optTimeout opts) ∧
    (∀ em : EnabledMode,
      checkTrace pm (checkEnabledState sel em opts) =
        [.lookupEv (checkEnabledState sel em opts).lookupArgs] ∨
      checkTrace pm (checkEnabledState sel em opts) =
        [.lookupEv (checkEnabledState sel em opts).lookupArgs,
         .assertEv (checkEnabledState sel em opts).assertion]) ∧
    (∀ edm : EditableMode,
      checkTrace pm (checkEditableState sel edm opts) =
        [.lookupEv (checkEditableState sel edm opts).lookupArgs] ∨
      checkTrace pm (checkEditableState sel edm opts) =
        [.lookupEv (checkEditableState sel edm opts).lookupArgs,
         .assertEv (checkEditableState sel edm opts).assertion]) := by
  refine ⟨rfl, rfl, rfl, rfl, rfl, rfl, rfl, rfl, ?_, ?_⟩
  · intro em
    exact (checkContract_holds pm (checkEnabledState sel em opts)).2.2.2.2.2
  · intro edm
    exact (checkContract_holds pm (checkEditableState sel edm opts)).2.2.2.2.2

/-- C6: each of the five state-checking operations resolves to true when
its predicate holds before the timeout and otherwise surfaces the failure
to the caller as a timeout error carrying elapsed time and limit, with a
single bounded wait and no retry; none of them ever resolves to false. -/
theorem state_checks_never_false (pm : PageModel) (sel : Selector)
    (opts : Option SelectorOptions) (vm : VisMode) (em : EnabledMode)
    (edm : EditableMode) (tp : TextPayload) (vp : StrOrRegex)
    (hm : HasMode) :
    checkContract pm (checkVisibilityState sel vm opts) ∧
    checkContract pm (checkEnabledState sel em opts) ∧
    checkContract pm (checkEditableState sel edm opts) ∧
    checkContract pm (checkSelectorText sel tp hm opts) ∧
    checkContract pm (checkSelectorValue sel vp hm opts) :=
  ⟨checkContract_holds pm _, checkContract_holds pm _,
   checkContract_holds pm _, checkContract_holds pm _,
   checkContract_holds pm _⟩

/-! ## Properties of the Element question -/

/-- C5: in the has-value coupling an ordered sequence of expected values
fails fast, before any ability call: with mode value an array payload
makes answeredBy throw the incompatible-payload error, while a single
string-or-regex payload is forwarded to checkSelectorValue. -/
theorem value_mode_array_fails_fast (e : Element) :
    (e.mode = "value" → ∀ vs, e.payload = .many vs →
      e.answeredBy = .error AnswerError.incompatiblePayload) ∧
    (e.mode = "value" → ∀ v, e.payload = .single v →
      e.answeredBy =
        .ok (.selectorValue e.selector v e.checkMode.hasMode e.options)) ∧
    (∀ (sel : Selector) (v : StrOrRegex) (m : HasMode)
       (o : Option SelectorOptions),
      (AbilityCall.selectorValue sel v m o).toCheck =
        checkSelectorValue sel v m o) := by
  refine ⟨?_, ?_, fun _ _ _ _ => rfl⟩
  · intro hm vs hp
    simp [Element.answeredBy, hm, hp]
  · intro hm v hp
    simp [Element.answeredBy, hm, hp]

/-- C5, witness: a value-mode Element holding an array payload throws the
incompatible-payload error. -/
theorem value_mode_array_fails_fast_witness :
    (Element.mk CheckMode.toBe "value" "#in" (.many [.str "a"]) none).mode
        = "value" ∧
    ((Element.mk CheckMode.toBe "value" "#in" (.many [.str "a"]) none).mode
        = "value" → ∀ vs,
      (Element.mk CheckMode.toBe "value" "#in" (.many [.str "a"]) none).payload
        = .many vs →
      (Element.mk CheckMode.toBe "value" "#in"
        (.many [.str "a"]) none).answeredBy =
          .error AnswerError.incompatiblePayload) :=
  ⟨rfl, (value_mode_array_fails_fast
    (Element.mk CheckMode.toBe "value" "#in" (.many [.str "a"]) none)).1⟩

/-- Every factory getter yields an Element whose mode is a handled one. -/
theorem modeKnown_factory (f : Factory) : modeKnown (factoryElement f) := by
  cases f <;> exact Or.inl rfl

/-- Every mode operator yields an Element whose mode is a handled one; in
particular the value operator stores a single payload. -/
theorem modeKnown_applyOp (e : Element) (op : ModeOp) :
    modeKnown (applyOp e op) := by
  cases op with
  | visible sel o => exact Or.inl rfl
  | enabled sel o => exact Or.inr (Or.inl rfl)
  | text sel t o => exact Or.inr (Or.inr (Or.inr (Or.inl rfl)))
  | value sel v o =>
      exact Or.inr (Or.inr (Or.inr (Or.inr ⟨rfl, v, rfl⟩)))
  | editable sel o => exact Or.inr (Or.inr (Or.inl rfl))

/-- A sequence of mode operators preserves the handled-mode invariant. -/
theorem modeKnown_foldl (e : Element) (he : modeKnown e)
    (ops : List ModeOp) : modeKnown (ops.foldl applyOp e) := by
  induction ops generalizing e with
  | nil => exact he
  | cons op rest ih => exact ih (applyOp e op) (modeKnown_applyOp e op)

/-- An Element with a handled mode always dispatches to an ability call. -/
theorem answeredBy_of_modeKnown (e : Element) (he : modeKnown e) :
    ∃ call, e.answeredBy = .ok call := by
  rcases he with h | h | h | h | ⟨h, v, hp⟩
  · exact ⟨.visibilityState e.selector e.checkMode.visMode e.options,
      by simp [Element.answeredBy, h]⟩
  · exact ⟨.enabledState e.selector e.checkMode.enMode e.options,
      by simp [Element.answeredBy, h]⟩
  · exact ⟨.editableState e.selector e.checkMode.edMode e.options,
      by simp [Element.answeredBy, h]⟩
  · exact ⟨.selectorText e.selector e.payload e.checkMode.hasMode e.options,
      by simp [Element.answeredBy, h]⟩
  · exact ⟨.selectorValue e.selector v e.checkMode.hasMode e.options,
      by simp [Element.answeredBy, h, hp]⟩

/-- C9: every Element built through the public interface (a factory
getter followed by any sequence of mode operators) has a handled mode, so
answeredBy always dispatches to a BrowseTheWeb check method and the final
unknown-mode throw is unreachable. -/
theorem public_element_always_dispatches (f : Factory)
    (ops : List ModeOp) :
    (∃ call, (buildElement f ops).answeredBy = .ok call) ∧
    (buildElement f ops).answeredBy ≠ .error AnswerError.unknownMode := by
  obtain ⟨call, hc⟩ := answeredBy_of_modeKnown (buildElement f ops)
    (modeKnown_foldl (factoryElement f) (modeKnown_factory f) ops)
  refine ⟨⟨call, hc⟩, ?_⟩
  rw [hc]
  simp

/-- C10: toHave constructs the same Element as toBe, and notToHave the
same as notToBe (both pairs share the check mode), so an Element built
from toHave or notToHave behaves identically, through any sequence of
mode operators and answeredBy, to one built from toBe or notToBe. -/
theorem toHave_toBe_equivalent :
    Element.toHave = Element.toBe ∧
    Element.notToHave = Element.notToBe ∧
    Element.toHave.checkMode = CheckMode.toBe ∧
    Element.notToHave.checkMode = CheckMode.notToBe ∧
    (∀ ops : List ModeOp,
      buildElement Factory.toHave ops = buildElement Factory.toBe ops ∧
      (buildElement Factory.toHave ops).answeredBy =
        (buildElement Factory.toBe ops).answeredBy ∧
      buildElement Factory.notToHave ops =
        buildElement Factory.notToBe ops ∧
      (buildElement Factory.notToHave ops).answeredBy =
        (buildElement Factory.notToBe ops).answeredBy) :=
  ⟨rfl, rfl, rfl, rfl, fun _ => ⟨rfl, rfl, rfl, rfl⟩⟩

/-! ## Properties of the storage helpers -/

/-- C8: local and session storage access round-trips: setting an item and
reading the same key gives the value back (the setter stores the JSON
serialization, the getter parses it), and reading a key with no stored
item resolves to undefined. -/
theorem storage_item_roundtrip {J : Type} (c : JsonCodec J)
    (stL stS : Storage) (k : String) (v : J) :
    getLocalStorageItem c (setLocalStorageItem c stL k v) k =
      .ok (some v) ∧
    getSessionStorageItem c (setSessionStorageItem c stS k v) k =
      .ok (some v) ∧
    (Storage.getItem stL k = none →
      getLocalStorageItem c stL k = .ok none) ∧
    (Storage.getItem stS k = none →
      getSessionStorageItem c stS k = .ok none) := by
  have hne : (c.stringify v == "") = false := by
    rw [beq_eq_false_iff_ne]
    exact c.stringify_ne_empty v
  refine ⟨?_, ?_, ?_, ?_⟩
  · simp [getLocalStorageItem, setLocalStorageItem, Storage.getItem,
      Storage.setItem, hne, c.parse_stringify]
  · simp [getSessionStorageItem, setSessionStorageItem, Storage.getItem,
      Storage.setItem, hne, c.parse_stringify]
  · intro h
    simp [getLocalStorageItem, h]
  · intro h
    simp [getSessionStorageItem, h]

/-- C8, witness: the round-trip evaluated on the concrete codec, the
empty storage areas and a concrete key. -/
theorem storage_item_roundtrip_witness :
    getLocalStorageItem unitCodec
      (setLocalStorageItem unitCodec Storage.emptyArea "localKey" ())
      "localKey" = .ok (some ()) ∧
    getSessionStorageItem unitCodec
      (setSessionStorageItem unitCodec Storage.emptyArea "localKey" ())
      "localKey" = .ok (some ()) ∧
    (Storage.getItem Storage.emptyArea "localKey" = none →
      getLocalStorageItem unitCodec Storage.emptyArea "localKey" =
        .ok none) ∧
    (Storage.getItem Storage.emptyArea "localKey" = none →
      getSessionStorageItem unitCodec Storage.emptyArea "localKey" =
        .ok none) :=
  storage_item_roundtrip unitCodec Storage.emptyArea Storage.emptyArea
    "localKey" ()
